import Mathlib

/-!
Shallow embedding of the real-time scoring and foul-handling logic of
`displays.go` (cheesy-arena): the per-alliance scoring state machine driven
by the scoring display websocket handler, and the foul ledger driven by the
referee display websocket handler.

Go machine integers are modelled as unbounded `Int` (the program only
increments/decrements small counters; `strconv.Atoi` range clamping is
modelled explicitly). Go slices that are used as stacks (append at the end,
pop from the end) are modelled as `List` with append at the end.
-/

namespace CheesyArena

/-- One teleop scoring cycle (struct `Cycle`). The Go zero value has all
fields false/0. -/
structure Cycle where
  ScoredHigh : Bool := false
  ScoredLow : Bool := false
  DeadBall : Bool := false
  Assists : Int := 0
  Truss : Bool := false
  Catch : Bool := false
deriving DecidableEq, Repr

/-- The Go zero value `Cycle{}`. -/
def Cycle.zero : Cycle := {}

/-- The score accumulator held in `RealtimeScore.CurrentScore` (struct
`Score`): autonomous counters plus the committed teleop cycle list, as used
by `ScoringDisplayWebsocketHandler`. -/
structure Score where
  AutoMobilityBonuses : Int := 0
  AutoHighHot : Int := 0
  AutoHigh : Int := 0
  AutoLowHot : Int := 0
  AutoLow : Int := 0
  AutoClearHigh : Int := 0
  AutoClearLow : Int := 0
  AutoClearDead : Int := 0
  Cycles : List Cycle := []
deriving DecidableEq, Repr

/-- A foul entry (struct `Foul`). `TimeInMatchSec` is a `float64` in Go; it
is modelled as `Int` here, which preserves the structural-equality semantics
used for deletion on the values the program produces. -/
structure Foul where
  TeamId : Int
  Rule : String
  IsTechnical : Bool
  TimeInMatchSec : Int
deriving DecidableEq, Repr

/-- The per-alliance real-time score (struct `RealtimeScore`), with the
fields `ScoringDisplayWebsocketHandler` and `RefereeDisplayWebsocketHandler`
read and write: current score, current cycle, preloaded-ball count, the two
commit flags, the two undo stacks, and the foul ledger. -/
structure RealtimeScore where
  CurrentScore : Score := {}
  CurrentCycle : Cycle := {}
  AutoPreloadedBalls : Int := 0
  AutoCommitted : Bool := false
  TeleopCommitted : Bool := false
  undoAutoScores : List Score := []
  undoCycles : List Cycle := []
  Fouls : List Foul := []
  FoulsCommitted : Bool := false
deriving DecidableEq, Repr

/-- Modelled from the spec: the fresh per-alliance `RealtimeScore` created
when a match is loaded (the constructor lives outside `displays.go`); the
spec says the score is "created fresh when a match is loaded", i.e. the Go
zero value: all counters 0, all flags false, all lists empty. -/
def initialRealtimeScore : RealtimeScore := {}

/-- Bound of Go `int64` (used by `strconv.Atoi` range clamping). -/
def goInt64Max : Int := 9223372036854775807

/-- Lower bound of Go `int64`. -/
def goInt64Min : Int := -9223372036854775808

/-- Base-10 digit-string accumulator for `atoi`; `none` when a non-digit
character occurs. -/
def parseDigits : List Char → Nat → Option Nat
  | [], acc => some acc
  | c :: rest, acc =>
    if c.isDigit then parseDigits rest (acc * 10 + (c.toNat - 48)) else none

/-- Go `strconv.Atoi`: optional sign, then at least one base-10 digit and
nothing else. Returns `(value, ok)`: on a syntax error the value is 0 and
`ok` is false; on 64-bit range overflow the value is clamped and `ok` is
false (Go returns the clamped value together with `ErrRange`). -/
def atoi (s : String) : Int × Bool :=
  let cs := s.toList
  let signAndDigits : Bool × List Char :=
    match cs with
    | '+' :: rest => (false, rest)
    | '-' :: rest => (true, rest)
    | _ => (false, cs)
  match signAndDigits.2 with
  | [] => (0, false)
  | ds =>
    match parseDigits ds 0 with
    | none => (0, false)
    | some n =>
      let v : Int := if signAndDigits.1 then -(n : Int) else (n : Int)
      if v > goInt64Max then (goInt64Max, false)
      else if v < goInt64Min then (goInt64Min, false)
      else (v, true)

/-- The commands the scoring display websocket handler dispatches on. The
`preload` payload carries `some s` when the websocket payload was a string
`s`, and `none` when the Go type assertion `data.(string)` fails. -/
inductive ScoringCommand where
  | preload (payload : Option String)
  | mobility
  | scoredHighHot
  | scoredHigh
  | scoredLowHot
  | scoredLow
  | assist
  | truss
  | catch
  | deadBall
  | commit
  | commitMatch
  | undo
deriving DecidableEq, Repr

/-- One iteration of the command dispatch switch in
`ScoringDisplayWebsocketHandler` (displays.go, the `switch messageType`
inside the read loop): returns the updated `RealtimeScore` together with a
flag that is true exactly when the handler called `websocket.WriteError`.
Each case mirrors the Go source: slices pushed with `append` become
`++ [x]`, popping `s[len(s)-1]` / `s[0:len(s)-1]` becomes
`getLast?` / `dropLast`. -/
def scoringStep (rs : RealtimeScore) : ScoringCommand → RealtimeScore × Bool
  | .preload payload =>
    if rs.AutoCommitted = false then
      match payload with
      | none => (rs, true)
      | some str =>
        let r := atoi str
        -- the Go code assigns AutoPreloadedBalls before checking the
        -- Atoi error, so the assignment happens even on parse failure
        let rs1 := { rs with AutoPreloadedBalls := r.1 }
        if r.2 then (rs1, false) else (rs1, true)
    else (rs, false)
  | .mobility =>
    if rs.AutoCommitted = false then
      ({ rs with undoAutoScores := rs.undoAutoScores ++ [rs.CurrentScore],
                 CurrentScore := { rs.CurrentScore with
                   AutoMobilityBonuses := rs.CurrentScore.AutoMobilityBonuses + 1 } }, false)
    else (rs, false)
  | .scoredHighHot =>
    if rs.AutoCommitted = false then
      ({ rs with undoAutoScores := rs.undoAutoScores ++ [rs.CurrentScore],
                 CurrentScore := { rs.CurrentScore with
                   AutoHighHot := rs.CurrentScore.AutoHighHot + 1 } }, false)
    else (rs, false)
  | .scoredHigh =>
    if rs.AutoCommitted = false then
      ({ rs with undoAutoScores := rs.undoAutoScores ++ [rs.CurrentScore],
                 CurrentScore := { rs.CurrentScore with
                   AutoHigh := rs.CurrentScore.AutoHigh + 1 } }, false)
    else if rs.TeleopCommitted = false ∧ rs.CurrentCycle.ScoredHigh = false then
      ({ rs with undoCycles := rs.undoCycles ++ [rs.CurrentCycle],
                 CurrentCycle := { rs.CurrentCycle with
                   ScoredHigh := true, ScoredLow := false, DeadBall := false } }, false)
    else (rs, false)
  | .scoredLowHot =>
    if rs.AutoCommitted = false then
      ({ rs with undoAutoScores := rs.undoAutoScores ++ [rs.CurrentScore],
                 CurrentScore := { rs.CurrentScore with
                   AutoLowHot := rs.CurrentScore.AutoLowHot + 1 } }, false)
    else (rs, false)
  | .scoredLow =>
    if rs.AutoCommitted = false then
      ({ rs with undoAutoScores := rs.undoAutoScores ++ [rs.CurrentScore],
                 CurrentScore := { rs.CurrentScore with
                   AutoLow := rs.CurrentScore.AutoLow + 1 } }, false)
    else if rs.TeleopCommitted = false ∧ rs.CurrentCycle.ScoredLow = false then
      ({ rs with undoCycles := rs.undoCycles ++ [rs.CurrentCycle],
                 CurrentCycle := { rs.CurrentCycle with
                   ScoredHigh := false, ScoredLow := true, DeadBall := false } }, false)
    else (rs, false)
  | .assist =>
    if rs.TeleopCommitted = false ∧ rs.CurrentCycle.Assists < 3 then
      ({ rs with undoCycles := rs.undoCycles ++ [rs.CurrentCycle],
                 CurrentCycle := { rs.CurrentCycle with
                   Assists := rs.CurrentCycle.Assists + 1 } }, false)
    else (rs, false)
  | .truss =>
    if rs.TeleopCommitted = false ∧ rs.CurrentCycle.Truss = false then
      ({ rs with undoCycles := rs.undoCycles ++ [rs.CurrentCycle],
                 CurrentCycle := { rs.CurrentCycle with Truss := true } }, false)
    else (rs, false)
  | .catch =>
    if rs.TeleopCommitted = false ∧ rs.CurrentCycle.Catch = false ∧
        rs.CurrentCycle.Truss = true then
      ({ rs with undoCycles := rs.undoCycles ++ [rs.CurrentCycle],
                 CurrentCycle := { rs.CurrentCycle with Catch := true } }, false)
    else (rs, false)
  | .deadBall =>
    if rs.TeleopCommitted = false ∧ rs.CurrentCycle.DeadBall = false then
      ({ rs with undoCycles := rs.undoCycles ++ [rs.CurrentCycle],
                 CurrentCycle := { rs.CurrentCycle with
                   ScoredHigh := false, ScoredLow := false, DeadBall := true } }, false)
    else (rs, false)
  | .commit =>
    if rs.AutoCommitted = false then
      ({ rs with AutoCommitted := true }, false)
    else if rs.TeleopCommitted = false then
      if rs.CurrentCycle.ScoredHigh = true ∨ rs.CurrentCycle.ScoredLow = true ∨
          rs.CurrentCycle.DeadBall = true then
        -- check whether this is a leftover ball from autonomous
        let cs := rs.CurrentScore
        let cs1 :=
          if rs.AutoPreloadedBalls - cs.AutoHighHot - cs.AutoHigh - cs.AutoLowHot -
              cs.AutoLow - cs.AutoClearHigh - cs.AutoClearLow - cs.AutoClearDead > 0 then
            if rs.CurrentCycle.ScoredHigh = true then
              { cs with AutoClearHigh := cs.AutoClearHigh + 1 }
            else if rs.CurrentCycle.ScoredLow = true then
              { cs with AutoClearLow := cs.AutoClearLow + 1 }
            else
              { cs with AutoClearDead := cs.AutoClearDead + 1 }
          else
            { cs with Cycles := cs.Cycles ++ [rs.CurrentCycle] }
        ({ rs with CurrentScore := cs1, CurrentCycle := Cycle.zero,
                   undoCycles := [] }, false)
      else (rs, false)
    else (rs, false)
  | .commitMatch =>
    let rs1 := { rs with AutoCommitted := true, TeleopCommitted := true }
    if rs.CurrentCycle ≠ Cycle.zero then
      ({ rs1 with CurrentScore := { rs1.CurrentScore with
           Cycles := rs1.CurrentScore.Cycles ++ [rs.CurrentCycle] } }, false)
    else (rs1, false)
  | .undo =>
    if rs.AutoCommitted = false ∧ rs.undoAutoScores ≠ [] then
      match rs.undoAutoScores.getLast? with
      | some s => ({ rs with CurrentScore := s,
                             undoAutoScores := rs.undoAutoScores.dropLast }, false)
      | none => (rs, false)
    else if rs.TeleopCommitted = false ∧ rs.undoCycles ≠ [] then
      match rs.undoCycles.getLast? with
      | some c => ({ rs with CurrentCycle := c,
                             undoCycles := rs.undoCycles.dropLast }, false)
      | none => (rs, false)
    else (rs, false)

/-- Run a sequence of scoring commands from a starting state (iterating the
handler's read loop), keeping only the state. -/
def scoringRun (rs : RealtimeScore) (cmds : List ScoringCommand) : RealtimeScore :=
  cmds.foldl (fun s c => (scoringStep s c).1) rs

/-- The arena-level state the referee handler touches: the two per-alliance
real-time scores (`mainArena.redRealtimeScore`, `mainArena.blueRealtimeScore`). -/
structure Arena where
  redRealtimeScore : RealtimeScore
  blueRealtimeScore : RealtimeScore
deriving DecidableEq, Repr

/-- The commands the referee display websocket handler dispatches on, with
their decoded `mapstructure` payloads. -/
inductive RefereeCommand where
  | addFoul (alliance : String) (teamId : Int) (rule : String) (isTechnical : Bool)
  | deleteFoul (alliance : String) (teamId : Int) (rule : String)
      (timeInMatchSec : Int) (isTechnical : Bool)
  | commitMatch
deriving DecidableEq, Repr

/-- The `deleteFoul` removal loop in `RefereeDisplayWebsocketHandler`: scan
the list in order, splice out the first entry structurally equal to `f`
(`append(fouls[:i], fouls[i+1:]...)` followed by `break`), leave the list
unchanged when no entry matches. -/
def removeFirstFoul (fouls : List Foul) (f : Foul) : List Foul :=
  match fouls with
  | [] => []
  | g :: rest => if g = f then rest else g :: removeFirstFoul rest f

/-- One iteration of the command dispatch switch in
`RefereeDisplayWebsocketHandler`. `now` is `mainArena.MatchTimeSec()` at the
moment an `addFoul` command is handled. -/
def refereeStep (arena : Arena) (now : Int) : RefereeCommand → Arena
  | .addFoul alliance teamId rule isTechnical =>
    let foul : Foul := { TeamId := teamId, Rule := rule, IsTechnical := isTechnical,
                         TimeInMatchSec := now }
    if alliance = "red" then
      { arena with redRealtimeScore := { arena.redRealtimeScore with
          Fouls := arena.redRealtimeScore.Fouls ++ [foul] } }
    else
      { arena with blueRealtimeScore := { arena.blueRealtimeScore with
          Fouls := arena.blueRealtimeScore.Fouls ++ [foul] } }
  | .deleteFoul alliance teamId rule timeInMatchSec isTechnical =>
    let foul : Foul := { TeamId := teamId, Rule := rule, IsTechnical := isTechnical,
                         TimeInMatchSec := timeInMatchSec }
    if alliance = "red" then
      { arena with redRealtimeScore := { arena.redRealtimeScore with
          Fouls := removeFirstFoul arena.redRealtimeScore.Fouls foul } }
    else
      { arena with blueRealtimeScore := { arena.blueRealtimeScore with
          Fouls := removeFirstFoul arena.blueRealtimeScore.Fouls foul } }
  | .commitMatch =>
    { arena with
        redRealtimeScore := { arena.redRealtimeScore with FoulsCommitted := true },
        blueRealtimeScore := { arena.blueRealtimeScore with FoulsCommitted := true } }

/-- Invariant for the assist cap: the current cycle and every snapshot on
the cycle-undo stack have at most 3 assists. -/
def assistInv (rs : RealtimeScore) : Prop :=
  rs.CurrentCycle.Assists ≤ 3 ∧ ∀ c ∈ rs.undoCycles, c.Assists ≤ 3

/-! ### Helper lemmas -/

/-- The assist-cap invariant is preserved by every single command. -/
theorem assistInv_step (rs : RealtimeScore) (cmd : ScoringCommand)
    (h : assistInv rs) : assistInv (scoringStep rs cmd).1 := by
  obtain ⟨h1, h2⟩ := h
  have hpush : ∀ c ∈ rs.undoCycles ++ [rs.CurrentCycle], c.Assists ≤ 3 := by
    intro c hc
    rcases List.mem_append.mp hc with hc | hc
    · exact h2 c hc
    · rcases List.mem_singleton.mp hc with rfl
      exact h1
  cases cmd with
  | preload payload =>
    rcases payload with _ | str
    · simp only [scoringStep, assistInv]
      split <;> exact ⟨h1, h2⟩
    · simp only [scoringStep, assistInv]
      split
      · split <;> exact ⟨h1, h2⟩
      · exact ⟨h1, h2⟩
  | mobility =>
    simp only [scoringStep, assistInv]
    split <;> exact ⟨h1, h2⟩
  | scoredHighHot =>
    simp only [scoringStep, assistInv]
    split <;> exact ⟨h1, h2⟩
  | scoredLowHot =>
    simp only [scoringStep, assistInv]
    split <;> exact ⟨h1, h2⟩
  | scoredHigh =>
    simp only [scoringStep, assistInv]
    split
    · exact ⟨h1, h2⟩
    · split <;> [exact ⟨h1, hpush⟩; exact ⟨h1, h2⟩]
  | scoredLow =>
    simp only [scoringStep, assistInv]
    split
    · exact ⟨h1, h2⟩
    · split <;> [exact ⟨h1, hpush⟩; exact ⟨h1, h2⟩]
  | assist =>
    simp only [scoringStep, assistInv]
    split
    · rename_i hcond
      obtain ⟨-, hlt⟩ := hcond
      refine ⟨?_, hpush⟩
      dsimp only
      omega
    · exact ⟨h1, h2⟩
  | truss =>
    simp only [scoringStep, assistInv]
    split <;> [exact ⟨h1, hpush⟩; exact ⟨h1, h2⟩]
  | «catch» =>
    simp only [scoringStep, assistInv]
    split <;> [exact ⟨h1, hpush⟩; exact ⟨h1, h2⟩]
  | deadBall =>
    simp only [scoringStep, assistInv]
    split <;> [exact ⟨h1, hpush⟩; exact ⟨h1, h2⟩]
  | commit =>
    simp only [scoringStep, assistInv]
    split
    · exact ⟨h1, h2⟩
    · split
      · split
        · refine ⟨?_, by simp⟩
          dsimp only
          decide
        · exact ⟨h1, h2⟩
      · exact ⟨h1, h2⟩
  | commitMatch =>
    simp only [scoringStep, assistInv]
    split <;> exact ⟨h1, h2⟩
  | undo =>
    simp only [scoringStep, assistInv]
    split
    · rename_i hcond
      cases hlast : rs.undoAutoScores.getLast? <;> simp only
      · exact ⟨h1, h2⟩
      · exact ⟨h1, h2⟩
    · split
      · rename_i hcond2
        cases hlast : rs.undoCycles.getLast? with
        | none => exact ⟨h1, h2⟩
        | some c =>
          simp only
          refine ⟨h2 c (List.mem_of_mem_getLast? ?_), fun d hd => h2 d (List.dropLast_subset _ hd)⟩
          exact hlast
      · exact ⟨h1, h2⟩

/-- The assist-cap invariant is preserved by every command sequence. -/
theorem assistInv_run (rs : RealtimeScore) (cmds : List ScoringCommand)
    (h : assistInv rs) : assistInv (scoringRun rs cmds) := by
  induction cmds generalizing rs with
  | nil => exact h
  | cons c rest ih => exact ih _ (assistInv_step rs c h)

/-! ### Claims -/

/-- C2: the spec says a `preload` payload that fails to parse as an integer
is reported as an error with the state unchanged; the code assigns the
(zero) result of `strconv.Atoi` to `AutoPreloadedBalls` before checking the
parse error, so a failing payload such as "x" overwrites a previously set
preloaded-ball count of 2 with 0 while also reporting the error. -/
theorem C2_preload_parse_failure_mutates_state :
    (scoringStep { AutoPreloadedBalls := 2 } (.preload (some "x"))).2 = true ∧
    (scoringStep { AutoPreloadedBalls := 2 } (.preload (some "x"))).1.AutoPreloadedBalls = 0 ∧
    (scoringStep { AutoPreloadedBalls := 2 } (.preload (some "x"))).1 ≠
      ({ AutoPreloadedBalls := 2 } : RealtimeScore) := by
  decide

/-- C6: `commitMatch` on the referee session sets `FoulsCommitted` for both
the red and the blue `RealtimeScore` and changes nothing else in either
score (there is a single referee handler, not bound to an alliance, so the
effect is identical whichever connection issues it). -/
theorem C6_commitMatch_commits_both_alliances (arena : Arena) (now : Int) :
    refereeStep arena now .commitMatch =
      { redRealtimeScore := { arena.redRealtimeScore with FoulsCommitted := true },
        blueRealtimeScore := { arena.blueRealtimeScore with FoulsCommitted := true } } :=
  rfl

/-- C7: `deleteFoul` removes exactly the first entry structurally equal to
the given foul, decreasing the length by exactly 1, and is a no-op when no
entry matches. -/
theorem C7_deleteFoul_removes_first_match (fouls : List Foul) (f : Foul) :
    (f ∈ fouls →
      ∃ l1 l2, fouls = l1 ++ f :: l2 ∧ f ∉ l1 ∧
        removeFirstFoul fouls f = l1 ++ l2 ∧
        (removeFirstFoul fouls f).length + 1 = fouls.length) ∧
    (f ∉ fouls → removeFirstFoul fouls f = fouls) := by
  induction fouls with
  | nil => simp [removeFirstFoul]
  | cons g rest ih =>
    constructor
    · intro hmem
      by_cases hgf : g = f
      · subst hgf
        exact ⟨[], rest, rfl, by simp, by simp [removeFirstFoul], by simp [removeFirstFoul]⟩
      · have hrest : f ∈ rest := by
          rcases List.mem_cons.mp hmem with h | h
          · exact absurd h.symm hgf
          · exact h
        obtain ⟨l1, l2, hsplit, hnot, heq, hlen⟩ := ih.1 hrest
        refine ⟨g :: l1, l2, by simp [hsplit], ?_, ?_, ?_⟩
        · simp only [List.mem_cons, not_or]
          exact ⟨fun h => hgf h.symm, hnot⟩
        · simp [removeFirstFoul, hgf, heq]
        · simp [removeFirstFoul, hgf, hlen]
    · intro hmem
      have hgf : ¬ g = f := fun h => hmem (h ▸ List.mem_cons_self g rest)
      have hrest : f ∉ rest := fun h => hmem (List.mem_cons_of_mem g h)
      simp [removeFirstFoul, hgf, ih.2 hrest]

/-- C7 witness: deleting the foul `(254, "G10", false, 30)` from a list that
holds it twice (around another foul) removes exactly the first copy. -/
theorem C7_deleteFoul_removes_first_match_witness :
    ∃ l1 l2,
      [({ TeamId := 254, Rule := "G10", IsTechnical := false, TimeInMatchSec := 30 } : Foul),
       { TeamId := 971, Rule := "G18", IsTechnical := true, TimeInMatchSec := 45 },
       { TeamId := 254, Rule := "G10", IsTechnical := false, TimeInMatchSec := 30 }] =
        l1 ++ ({ TeamId := 254, Rule := "G10", IsTechnical := false,
                 TimeInMatchSec := 30 } : Foul) :: l2 ∧
      ({ TeamId := 254, Rule := "G10", IsTechnical := false,
         TimeInMatchSec := 30 } : Foul) ∉ l1 ∧
      removeFirstFoul
        [({ TeamId := 254, Rule := "G10", IsTechnical := false, TimeInMatchSec := 30 } : Foul),
         { TeamId := 971, Rule := "G18", IsTechnical := true, TimeInMatchSec := 45 },
         { TeamId := 254, Rule := "G10", IsTechnical := false, TimeInMatchSec := 30 }]
        { TeamId := 254, Rule := "G10", IsTechnical := false, TimeInMatchSec := 30 } =
        l1 ++ l2 ∧
      (removeFirstFoul
        [({ TeamId := 254, Rule := "G10", IsTechnical := false, TimeInMatchSec := 30 } : Foul),
         { TeamId := 971, Rule := "G18", IsTechnical := true, TimeInMatchSec := 45 },
         { TeamId := 254, Rule := "G10", IsTechnical := false, TimeInMatchSec := 30 }]
        { TeamId := 254, Rule := "G10", IsTechnical := false, TimeInMatchSec := 30 }).length + 1 =
        ([({ TeamId := 254, Rule := "G10", IsTechnical := false, TimeInMatchSec := 30 } : Foul),
          { TeamId := 971, Rule := "G18", IsTechnical := true, TimeInMatchSec := 45 },
          { TeamId := 254, Rule := "G10", IsTechnical := false, TimeInMatchSec := 30 }]).length :=
  (C7_deleteFoul_removes_first_match _ _).1 (by decide)

/-- C8: when `Truss` is false on the current cycle, `catch` leaves the whole
`RealtimeScore` unchanged; whenever `catch` changes the state at all, the
cycle had `Truss = true` and `Catch = false`, and the result has the catch
flag set. -/
theorem C8_catch_requires_truss (rs : RealtimeScore) :
    (rs.CurrentCycle.Truss = false → (scoringStep rs .catch).1 = rs) ∧
    ((scoringStep rs .catch).1 ≠ rs →
      rs.CurrentCycle.Truss = true ∧ rs.CurrentCycle.Catch = false ∧
      (scoringStep rs .catch).1.CurrentCycle.Catch = true) := by
  constructor
  · intro h
    simp [scoringStep, h]
  · intro hne
    by_cases hguard : rs.TeleopCommitted = false ∧ rs.CurrentCycle.Catch = false ∧
        rs.CurrentCycle.Truss = true
    · refine ⟨hguard.2.2, hguard.2.1, ?_⟩
      simp [scoringStep, hguard]
    · exact absurd (by simp [scoringStep, hguard]) hne

/-- C8 witness: with `Truss` still false on a fresh score, `catch` leaves
the state unchanged. -/
theorem C8_catch_requires_truss_witness :
    (scoringStep initialRealtimeScore .catch).1 = initialRealtimeScore :=
  (C8_catch_requires_truss initialRealtimeScore).1 rfl

/-- C10: the foul handler routes by the literal comparison
`alliance == "red"`: exactly the string "red" selects the red foul list, and
every other alliance string (such as "blue" or the empty string) applies
`addFoul`/`deleteFoul` to the blue list, leaving the red score unchanged. -/
theorem C10_alliance_string_routing (arena : Arena) (now : Int)
    (alliance rule : String) (teamId t : Int) (tech : Bool) :
    (alliance ≠ "red" →
      (refereeStep arena now (.addFoul alliance teamId rule tech)).redRealtimeScore =
        arena.redRealtimeScore ∧
      (refereeStep arena now (.addFoul alliance teamId rule tech)).blueRealtimeScore =
        { arena.blueRealtimeScore with Fouls := arena.blueRealtimeScore.Fouls ++
            [({ TeamId := teamId, Rule := rule, IsTechnical := tech, TimeInMatchSec := now } : Foul)] } ∧
      (refereeStep arena now (.deleteFoul alliance teamId rule t tech)).redRealtimeScore =
        arena.redRealtimeScore ∧
      (refereeStep arena now (.deleteFoul alliance teamId rule t tech)).blueRealtimeScore =
        { arena.blueRealtimeScore with Fouls := (removeFirstFoul arena.blueRealtimeScore.Fouls
            { TeamId := teamId, Rule := rule, IsTechnical := tech, TimeInMatchSec := t }) }) ∧
    (alliance = "red" →
      (refereeStep arena now (.addFoul alliance teamId rule tech)).blueRealtimeScore =
        arena.blueRealtimeScore ∧
      (refereeStep arena now (.addFoul alliance teamId rule tech)).redRealtimeScore =
        { arena.redRealtimeScore with Fouls := arena.redRealtimeScore.Fouls ++
            [({ TeamId := teamId, Rule := rule, IsTechnical := tech, TimeInMatchSec := now } : Foul)] } ∧
      (refereeStep arena now (.deleteFoul alliance teamId rule t tech)).blueRealtimeScore =
        arena.blueRealtimeScore ∧
      (refereeStep arena now (.deleteFoul alliance teamId rule t tech)).redRealtimeScore =
        { arena.redRealtimeScore with Fouls := (removeFirstFoul arena.redRealtimeScore.Fouls
            { TeamId := teamId, Rule := rule, IsTechnical := tech, TimeInMatchSec := t }) }) := by
  constructor
  · intro h
    refine ⟨?_, ?_, ?_, ?_⟩ <;> simp [refereeStep, h]
  · intro h
    refine ⟨?_, ?_, ?_, ?_⟩ <;> simp [refereeStep, h]

/-- C10 witness: with an empty-string alliance, `addFoul` lands on the blue
list and the red score is untouched. -/
theorem C10_alliance_string_routing_witness :
    (refereeStep ⟨{}, {}⟩ 10 (.addFoul "" 254 "G10" false)).redRealtimeScore =
      ({} : RealtimeScore) :=
  ((C10_alliance_string_routing ⟨{}, {}⟩ 10 "" "G10" 254 0 false).1 (by decide)).1

/-- C3 counterexample: on the fresh score the phase is AutoOpen
(`AutoCommitted = false`), yet `assist` is not a no-op: it increments the
current cycle's assist count and pushes a snapshot onto the cycle-undo
stack. -/
theorem C3_assist_in_AutoOpen_not_noop :
    initialRealtimeScore.AutoCommitted = false ∧
    (scoringStep initialRealtimeScore .assist).1.CurrentCycle.Assists = 1 ∧
    (scoringStep initialRealtimeScore .assist).1.undoCycles = [Cycle.zero] ∧
    (scoringStep initialRealtimeScore .assist).1 ≠ initialRealtimeScore := by
  decide

/-- C3 amended: the teleop cycle commands (`assist`, `truss`, `catch`,
`deadBall`) are guarded only by `TeleopCommitted = false` plus their
per-command cycle conditions, not by the phase being TeleopOpen: they are
silent no-ops when teleop is committed, and their effect is entirely
independent of the `AutoCommitted` flag, so during AutoOpen they mutate the
current cycle exactly as they would in TeleopOpen. -/
theorem C3_teleop_cycle_commands_ignore_autoCommitted
    (rs : RealtimeScore) (cmd : ScoringCommand)
    (h : cmd = .assist ∨ cmd = .truss ∨ cmd = .catch ∨ cmd = .deadBall) :
    (rs.TeleopCommitted = true → (scoringStep rs cmd).1 = rs) ∧
    (∀ b : Bool, (scoringStep { rs with AutoCommitted := b } cmd).1 =
      { (scoringStep rs cmd).1 with AutoCommitted := b }) := by
  rcases h with h | h | h | h <;> subst h <;>
    refine ⟨fun ht => by simp [scoringStep, ht], fun b => ?_⟩ <;>
    · simp only [scoringStep]
      split <;> rename_i hcond <;> simp_all

/-- C3 amended witness: `assist` is a no-op once teleop is committed. -/
theorem C3_teleop_cycle_commands_ignore_autoCommitted_witness :
    (scoringStep ({ TeleopCommitted := true } : RealtimeScore) .assist).1 =
      ({ TeleopCommitted := true } : RealtimeScore) :=
  (C3_teleop_cycle_commands_ignore_autoCommitted { TeleopCommitted := true } .assist
    (Or.inl rfl)).1 rfl

/-- C4 counterexample: from the fresh score the reachable command sequence
`[assist, commitMatch]` appends a cycle with none of
scoredHigh/scoredLow/deadBall set to the committed cycle list (`commitMatch`
appends any current cycle that differs from the zero value, including one
that only has assists). -/
theorem C4_commitMatch_appends_flagless_cycle :
    (scoringRun initialRealtimeScore [.assist, .commitMatch]).CurrentScore.Cycles =
      [{ Assists := 1 }] ∧
    ({ Assists := 1 } : Cycle).ScoredHigh = false ∧
    ({ Assists := 1 } : Cycle).ScoredLow = false ∧
    ({ Assists := 1 } : Cycle).DeadBall = false := by
  decide

/-- C4 amended: `commit` never appends a cycle without one of
scoredHigh/scoredLow/deadBall set; `commitMatch` appends the current cycle
whenever it differs from the zero cycle, which can include a cycle with none
of those flags set (e.g. only assists/truss/catch recorded). Formally: any
cycle newly present in the committed cycle list after `commit` or
`commitMatch` either has one of the three flags set, or was appended by
`commitMatch` and equals the (non-zero) current cycle. -/
theorem C4_commit_append_policy (rs : RealtimeScore) (cmd : ScoringCommand)
    (hcmd : cmd = .commit ∨ cmd = .commitMatch) (c : Cycle)
    (hc : c ∈ (scoringStep rs cmd).1.CurrentScore.Cycles)
    (hnew : c ∉ rs.CurrentScore.Cycles) :
    (c.ScoredHigh = true ∨ c.ScoredLow = true ∨ c.DeadBall = true) ∨
    (cmd = .commitMatch ∧ c = rs.CurrentCycle ∧ c ≠ Cycle.zero) := by
  rcases hcmd with h | h <;> subst h
  · left
    simp only [scoringStep] at hc
    split at hc
    · exact absurd hc hnew
    · split at hc
      · split at hc
        · rename_i hflags
          by_cases hrem : rs.AutoPreloadedBalls - rs.CurrentScore.AutoHighHot -
              rs.CurrentScore.AutoHigh - rs.CurrentScore.AutoLowHot -
              rs.CurrentScore.AutoLow - rs.CurrentScore.AutoClearHigh -
              rs.CurrentScore.AutoClearLow - rs.CurrentScore.AutoClearDead > 0
          · simp only [hrem, if_true] at hc
            split at hc
            · simp_all
            · split at hc <;> simp_all
          · simp only [hrem, if_false] at hc
            simp only [List.mem_append, List.mem_singleton] at hc
            rcases hc with hc | hc
            · exact absurd hc hnew
            · subst hc
              exact hflags
        · exact absurd hc hnew
      · exact absurd hc hnew
  · simp only [scoringStep] at hc
    split at hc
    · rename_i hne
      simp only [List.mem_append, List.mem_singleton] at hc
      rcases hc with hc | hc
      · exact absurd hc hnew
      · exact Or.inr ⟨rfl, hc, hc ▸ hne⟩
    · exact absurd hc hnew

/-- C4 amended witness: committing a scoredHigh cycle (with no leftover
balls remaining) appends a cycle carrying one of the three flags. -/
theorem C4_commit_append_policy_witness :
    (({ ScoredHigh := true } : Cycle).ScoredHigh = true ∨
      ({ ScoredHigh := true } : Cycle).ScoredLow = true ∨
      ({ ScoredHigh := true } : Cycle).DeadBall = true) ∨
    (ScoringCommand.commit = ScoringCommand.commitMatch ∧
      ({ ScoredHigh := true } : Cycle) =
        ({ CurrentCycle := { ScoredHigh := true }, AutoCommitted := true } :
          RealtimeScore).CurrentCycle ∧
      ({ ScoredHigh := true } : Cycle) ≠ Cycle.zero) :=
  C4_commit_append_policy
    { CurrentCycle := { ScoredHigh := true }, AutoCommitted := true } .commit
    (Or.inl rfl) { ScoredHigh := true } (by decide) (by decide)

/-- C5 counterexample: after the reachable sequence `[assist]` the phase is
still AutoOpen and the auto-undo stack (the claim's "relevant stack") is
empty, yet `undo` is not a no-op: it falls through to the cycle-undo branch
and restores the current cycle. -/
theorem C5_undo_not_noop_on_empty_auto_stack :
    (scoringRun initialRealtimeScore [.assist]).AutoCommitted = false ∧
    (scoringRun initialRealtimeScore [.assist]).undoAutoScores = [] ∧
    (scoringStep (scoringRun initialRealtimeScore [.assist]) .undo).1 ≠
      scoringRun initialRealtimeScore [.assist] := by
  decide

/-- C5 amended: `undo` pops the auto-undo stack in LIFO order (restoring
exactly the most recently pushed AutoScore snapshot) whenever
`AutoCommitted` is false and that stack is non-empty; otherwise, whenever
`TeleopCommitted` is false and the cycle-undo stack is non-empty — which can
happen during AutoOpen, since the cycle commands are enabled there — it pops
the cycle-undo stack in LIFO order, restoring exactly the most recently
pushed Cycle snapshot; it is a no-op only when both guards fail. -/
theorem C5_undo_lifo (rs : RealtimeScore) :
    (∀ l s, rs.AutoCommitted = false → rs.undoAutoScores = l ++ [s] →
      (scoringStep rs .undo).1 = { rs with CurrentScore := s, undoAutoScores := l }) ∧
    (∀ l c, (rs.AutoCommitted = true ∨ rs.undoAutoScores = []) →
      rs.TeleopCommitted = false → rs.undoCycles = l ++ [c] →
      (scoringStep rs .undo).1 = { rs with CurrentCycle := c, undoCycles := l }) ∧
    ((rs.AutoCommitted = true ∨ rs.undoAutoScores = []) →
      (rs.TeleopCommitted = true ∨ rs.undoCycles = []) →
      (scoringStep rs .undo).1 = rs) := by
  refine ⟨?_, ?_, ?_⟩
  · intro l s hauto hstack
    have hne : rs.undoAutoScores ≠ [] := by simp [hstack]
    simp [scoringStep, hauto, hne, hstack, List.getLast?_concat,
      List.dropLast_concat]
  · intro l c hfail hteleop hstack
    have hne : rs.undoCycles ≠ [] := by simp [hstack]
    have hguard : ¬ (rs.AutoCommitted = false ∧ rs.undoAutoScores ≠ []) := by
      rcases hfail with h | h <;> simp [h]
    simp [scoringStep, hguard, hteleop, hne, hstack, List.getLast?_concat,
      List.dropLast_concat]
  · intro h1 h2
    have hguard1 : ¬ (rs.AutoCommitted = false ∧ rs.undoAutoScores ≠ []) := by
      rcases h1 with h | h <;> simp [h]
    have hguard2 : ¬ (rs.TeleopCommitted = false ∧ rs.undoCycles ≠ []) := by
      rcases h2 with h | h <;> simp [h]
    simp only [scoringStep, hguard1, hguard2, if_false]

/-- C5 amended witness: with one AutoScore snapshot on the auto stack, undo
restores it and empties the stack. -/
theorem C5_undo_lifo_witness :
    (scoringStep ({ CurrentScore := { AutoHigh := 1 },
                    undoAutoScores := [{}] } : RealtimeScore) .undo).1 =
      ({} : RealtimeScore) :=
  (C5_undo_lifo { CurrentScore := { AutoHigh := 1 }, undoAutoScores := [{}] }).1
    [] {} rfl rfl

/-- C1: on `commit` in phase TeleopOpen (`autoCommitted` true,
`teleopCommitted` false) with one of scoredHigh/scoredLow/deadBall set on
the current cycle, the handler computes `remaining = AutoPreloadedBalls`
minus the sum of the four auto scored counters and the three clear
counters; when `remaining > 0` it increments exactly the clear counter
matching the cycle's flag and leaves the committed cycle list untouched,
otherwise it appends the current cycle to the committed cycle list; in both
cases it resets the current cycle to the zero value and clears the
cycle-undo stack. -/
theorem C1_commit_leftover_ball_rule (rs : RealtimeScore)
    (h1 : rs.AutoCommitted = true) (h2 : rs.TeleopCommitted = false)
    (h3 : rs.CurrentCycle.ScoredHigh = true ∨ rs.CurrentCycle.ScoredLow = true ∨
      rs.CurrentCycle.DeadBall = true) :
    (scoringStep rs .commit).1.CurrentCycle = Cycle.zero ∧
    (scoringStep rs .commit).1.undoCycles = [] ∧
    (rs.AutoPreloadedBalls -
        (rs.CurrentScore.AutoHigh + rs.CurrentScore.AutoHighHot + rs.CurrentScore.AutoLow +
         rs.CurrentScore.AutoLowHot + rs.CurrentScore.AutoClearHigh +
         rs.CurrentScore.AutoClearLow + rs.CurrentScore.AutoClearDead) > 0 →
      (scoringStep rs .commit).1.CurrentScore.Cycles = rs.CurrentScore.Cycles ∧
      (rs.CurrentCycle.ScoredHigh = true →
        (scoringStep rs .commit).1.CurrentScore =
          { rs.CurrentScore with AutoClearHigh := rs.CurrentScore.AutoClearHigh + 1 }) ∧
      (rs.CurrentCycle.ScoredHigh = false → rs.CurrentCycle.ScoredLow = true →
        (scoringStep rs .commit).1.CurrentScore =
          { rs.CurrentScore with AutoClearLow := rs.CurrentScore.AutoClearLow + 1 }) ∧
      (rs.CurrentCycle.ScoredHigh = false → rs.CurrentCycle.ScoredLow = false →
        (scoringStep rs .commit).1.CurrentScore =
          { rs.CurrentScore with AutoClearDead := rs.CurrentScore.AutoClearDead + 1 })) ∧
    (¬ (rs.AutoPreloadedBalls -
        (rs.CurrentScore.AutoHigh + rs.CurrentScore.AutoHighHot + rs.CurrentScore.AutoLow +
         rs.CurrentScore.AutoLowHot + rs.CurrentScore.AutoClearHigh +
         rs.CurrentScore.AutoClearLow + rs.CurrentScore.AutoClearDead) > 0) →
      (scoringStep rs .commit).1.CurrentScore =
        { rs.CurrentScore with Cycles := rs.CurrentScore.Cycles ++ [rs.CurrentCycle] }) := by
  have hstep : (scoringStep rs .commit).1 =
      { rs with
        CurrentScore :=
          if rs.AutoPreloadedBalls - rs.CurrentScore.AutoHighHot - rs.CurrentScore.AutoHigh -
              rs.CurrentScore.AutoLowHot - rs.CurrentScore.AutoLow -
              rs.CurrentScore.AutoClearHigh - rs.CurrentScore.AutoClearLow -
              rs.CurrentScore.AutoClearDead > 0 then
            if rs.CurrentCycle.ScoredHigh = true then
              { rs.CurrentScore with AutoClearHigh := rs.CurrentScore.AutoClearHigh + 1 }
            else if rs.CurrentCycle.ScoredLow = true then
              { rs.CurrentScore with AutoClearLow := rs.CurrentScore.AutoClearLow + 1 }
            else { rs.CurrentScore with AutoClearDead := rs.CurrentScore.AutoClearDead + 1 }
          else { rs.CurrentScore with Cycles := rs.CurrentScore.Cycles ++ [rs.CurrentCycle] },
        CurrentCycle := Cycle.zero,
        undoCycles := [] } := by
    simp only [scoringStep, h1, h2]
    rw [if_neg (by simp), if_pos (by simp), if_pos h3]
  have hcode : (rs.AutoPreloadedBalls - rs.CurrentScore.AutoHighHot -
      rs.CurrentScore.AutoHigh - rs.CurrentScore.AutoLowHot - rs.CurrentScore.AutoLow -
      rs.CurrentScore.AutoClearHigh - rs.CurrentScore.AutoClearLow -
      rs.CurrentScore.AutoClearDead > 0) ↔ (rs.AutoPreloadedBalls -
        (rs.CurrentScore.AutoHigh + rs.CurrentScore.AutoHighHot + rs.CurrentScore.AutoLow +
         rs.CurrentScore.AutoLowHot + rs.CurrentScore.AutoClearHigh +
         rs.CurrentScore.AutoClearLow + rs.CurrentScore.AutoClearDead) > 0) := by
    omega
  refine ⟨by rw [hstep], by rw [hstep], ?_, ?_⟩
  · intro hr
    have hr' := hcode.mpr hr
    refine ⟨?_, ?_, ?_, ?_⟩
    · rw [hstep]
      simp only [hr', if_pos]
      split
      · simp
      · split <;> simp
    · intro hsh
      rw [hstep]
      simp [hr', hsh]
    · intro hsh hsl
      rw [hstep]
      simp [hr', hsh, hsl]
    · intro hsh hsl
      rw [hstep]
      simp [hr', hsh, hsl]
  · intro hr
    have hr' : ¬ (rs.AutoPreloadedBalls - rs.CurrentScore.AutoHighHot -
        rs.CurrentScore.AutoHigh - rs.CurrentScore.AutoLowHot - rs.CurrentScore.AutoLow -
        rs.CurrentScore.AutoClearHigh - rs.CurrentScore.AutoClearLow -
        rs.CurrentScore.AutoClearDead > 0) := fun h => hr (hcode.mp h)
    rw [hstep]
    simp [hr']

/-- C1 witness: the spec's worked example (`preloadedBalls = 2`,
`autoHigh = 1`, committing a scoredHigh cycle): remaining is 1 > 0, so the
committed cycle list stays empty. -/
theorem C1_commit_leftover_ball_rule_witness :
    (scoringStep ({ CurrentScore := { AutoHigh := 1 },
                    CurrentCycle := { ScoredHigh := true },
                    AutoPreloadedBalls := 2,
                    AutoCommitted := true } : RealtimeScore) .commit).1.CurrentScore.Cycles =
      ({ CurrentScore := { AutoHigh := 1 },
         CurrentCycle := { ScoredHigh := true },
         AutoPreloadedBalls := 2,
         AutoCommitted := true } : RealtimeScore).CurrentScore.Cycles :=
  ((C1_commit_leftover_ball_rule
    { CurrentScore := { AutoHigh := 1 },
      CurrentCycle := { ScoredHigh := true },
      AutoPreloadedBalls := 2,
      AutoCommitted := true } rfl rfl (Or.inl rfl)).2.2.1 (by decide)).1

/-- C9: from the fresh score, no command sequence (assists, undos, or any
other commands) ever brings the current cycle's assist count above 3;
`assist` increments the count exactly when teleop is uncommitted and the
count is strictly below 3, and is a no-op whenever the count is not below
3. -/
theorem C9_assists_never_exceed_three :
    (∀ cmds : List ScoringCommand,
      (scoringRun initialRealtimeScore cmds).CurrentCycle.Assists ≤ 3) ∧
    (∀ rs : RealtimeScore, rs.TeleopCommitted = false → rs.CurrentCycle.Assists < 3 →
      (scoringStep rs .assist).1.CurrentCycle.Assists = rs.CurrentCycle.Assists + 1) ∧
    (∀ rs : RealtimeScore, ¬ rs.CurrentCycle.Assists < 3 → (scoringStep rs .assist).1 = rs) := by
  refine ⟨?_, ?_, ?_⟩
  · intro cmds
    exact (assistInv_run initialRealtimeScore cmds ⟨by decide, by simp [initialRealtimeScore]⟩).1
  · intro rs ht hlt
    simp [scoringStep, ht, hlt]
  · intro rs hge
    simp [scoringStep, hge]

/-- C9 witness: four consecutive assists stay capped at 3, and `assist` on
a cycle already at 3 assists is a no-op. -/
theorem C9_assists_never_exceed_three_witness :
    (scoringRun initialRealtimeScore
      [.assist, .assist, .assist, .assist]).CurrentCycle.Assists ≤ 3 ∧
    (scoringStep ({ CurrentCycle := { Assists := 3 } } : RealtimeScore) .assist).1 =
      ({ CurrentCycle := { Assists := 3 } } : RealtimeScore) :=
  ⟨C9_assists_never_exceed_three.1 [.assist, .assist, .assist, .assist],
   C9_assists_never_exceed_three.2.2 { CurrentCycle := { Assists := 3 } } (by decide)⟩

end CheesyArena
